import Mathlib

/-!
Shallow embedding of the notification classification and deduplication
engine of the repository-monitor program, together with proofs about it.

Sources embedded:
* `main.go` — `UserStore.shouldNotify`, `UserStore.recordNotification`,
  `UserStore.cleanOldNotifications`, `checkGitHubNotifications`, the poll
  loop of `main`, and the account-registry store methods.
* `internal/store/postgres` (store.go) — `Store.ShouldNotify`,
  `Store.RecordNotification`, `Store.CleanOldNotifications`,
  `Store.AddGitHubAccount`, `Store.RemoveGitHubAccount`,
  `Store.ToggleGitHubAccount`, `Store.GetUser`, `Store.GetAllUsers`.
* `cmd/monitor/main.go` — `processNotifications`.
* `internal/github/notifications.go` — `Client.GetNotifications`.

Machine timestamps are modelled as `Int` seconds.  Go byte strings are
modelled as Lean `String`s whose characters stand for the bytes; `len`
and slicing in Go become `String.length` / `List.take` on the data.
-/

namespace RepoMonitor

/-- Go `strconv.Atoi` with the error ignored (the callers in `main.go`
discard the error, leaving the zero value on a failed parse). -/
def atoi (s : String) : Nat :=
  (s.toNat?).getD 0

/-- Whether `pat` occurs as a contiguous run inside `l`. -/
def hasInfix (pat : List Char) : List Char → Bool
  | [] => pat.isEmpty
  | c :: t => pat.isPrefixOf (c :: t) || hasInfix pat t

/-- Go `strings.Contains s pat`. -/
def containsSub (s pat : String) : Bool :=
  hasInfix pat.data s.data

/-- The inline truncation of `checkGitHubNotifications` (main.go):
`if len(content) > 300 { content = content[:297] + "..." }`. -/
def truncateContent (s : String) : String :=
  if s.length > 300 then String.mk (s.data.take 297 ++ ['.', '.', '.']) else s

/-! ## Ledger rows and the renotify gate -/

/-- One row of the `sent_notifications` table. -/
structure LedgerRow where
  chatID : Int
  itemURL : String
  notifType : String
  contentHash : String
  createdAt : Int
deriving DecidableEq, Repr

/-- The rows matching all four key fields of the gating query
(`WHERE chat_id = $1 AND item_url = $2 AND notification_type = $3 AND content_hash = $4`). -/
def matchingRows (ledger : List LedgerRow) (chatID : Int)
    (itemURL ntype chash : String) : List LedgerRow :=
  ledger.filter fun r =>
    r.chatID == chatID && r.itemURL == itemURL &&
    r.notifType == ntype && r.contentHash == chash

/-- `ORDER BY created_at DESC LIMIT 1`: the greatest `created_at` among the
rows, if any. -/
def latestCreatedAt (rows : List LedgerRow) : Option Int :=
  rows.foldl (fun acc r =>
    match acc with
    | none => some r.createdAt
    | some t => some (max t r.createdAt)) none

/-- `UserStore.shouldNotify` (main.go): no matching row → notify; otherwise
notify iff `time.Since(last) > renotifyInterval * time.Second`. -/
def shouldNotify (ledger : List LedgerRow) (now : Int) (chatID : Int)
    (itemURL ntype chash : String) (renotifyInterval : Int) : Bool :=
  match latestCreatedAt (matchingRows ledger chatID itemURL ntype chash) with
  | none => true
  | some t => now - t > renotifyInterval

/-- `Store.ShouldNotify` (internal/store/postgres): identical query, but the
comparison is `time.Since(last) > renotifyInterval * time.Hour`. -/
def ShouldNotify (ledger : List LedgerRow) (now : Int) (chatID : Int)
    (itemURL ntype chash : String) (renotifyInterval : Int) : Bool :=
  match latestCreatedAt (matchingRows ledger chatID itemURL ntype chash) with
  | none => true
  | some t => now - t > renotifyInterval * 3600

/-- The gate as the spec words it ("No matching row → deliver (true). A
matching row → deliver iff now − deliveredAt > coolDown", cool-down in
seconds).  Used to compare the two source variants against the spec. -/
def gateSpecSeconds (ledger : List LedgerRow) (now : Int) (chatID : Int)
    (itemURL ntype chash : String) (coolDown : Int) : Bool :=
  match latestCreatedAt (matchingRows ledger chatID itemURL ntype chash) with
  | none => true
  | some t => now - t > coolDown

/-- `UserStore.recordNotification` / `Store.RecordNotification`: one `INSERT`
into `sent_notifications` with `created_at = CURRENT_TIMESTAMP`. -/
def recordNotification (ledger : List LedgerRow) (chatID : Int)
    (itemURL ntype chash : String) (now : Int) : List LedgerRow :=
  ledger ++ [⟨chatID, itemURL, ntype, chash, now⟩]

/-- `UserStore.cleanOldNotifications` (main.go): delete rows with
`created_at < CURRENT_TIMESTAMP - INTERVAL '1 second' * interval`. -/
def cleanOldNotifications (ledger : List LedgerRow) (now renotifyInterval : Int) :
    List LedgerRow :=
  ledger.filter fun r => !(r.createdAt < now - renotifyInterval)

/-- `Store.CleanOldNotifications` (internal/store/postgres): delete rows with
`created_at < time.Now().Add(-interval * time.Hour)`. -/
def CleanOldNotifications (ledger : List LedgerRow) (now renotifyInterval : Int) :
    List LedgerRow :=
  ledger.filter fun r => !(r.createdAt < now - renotifyInterval * 3600)

/-! ## The classifier: `checkGitHubNotifications` (main.go) -/

/-- Resolved state of an issue or pull request, as read off the GitHub API
response (`pr.GetState()`, `pr.GetMerged()`, `pr.GetUser().GetLogin()`,
`pr.GetBody()`, `pr.GetHTMLURL()`; `merged` is always false for issues). -/
structure ItemDetail where
  state : String
  merged : Bool
  author : String
  body : String
  htmlURL : String
deriving DecidableEq, Repr

/-- An issue / PR-review comment: author login, body, creation time.  The Go
code never reads `createdAt`; it is carried so that claims about "a comment
posted after the mention's comment" can be stated. -/
structure Comment where
  author : String
  body : String
  createdAt : Int
deriving DecidableEq, Repr

/-- Result of a remote fetch: success, a 404 response, or any other error. -/
inductive FetchResult (α : Type) where
  | ok (a : α)
  | notFound
  | err
deriving DecidableEq, Repr

/-- One element of the review-requested search result
(`client.Search.Issues` with query `review-requested:u is:open is:pr`). -/
structure SearchPR where
  repositoryURL : String
  title : String
  author : String
  htmlURL : String
deriving DecidableEq, Repr

/-- The remote adapter: responses the GitHub client would return during one
cycle.  Deterministic within the cycle (the Go code re-issues identical GET
requests and we model the remote state as fixed while one event is
processed). -/
structure World where
  getPR : String → String → Nat → FetchResult ItemDetail
  getIssue : String → String → Nat → FetchResult ItemDetail
  listComments : String → String → Nat → Option (List Comment)
  getIssueComment : String → String → Nat → FetchResult Comment
  getPRComment : String → String → Nat → FetchResult Comment
  searchReviewPRs : FetchResult (List SearchPR)

/-- A raw upstream notification (`*github.Notification`): reason, subject
type/title/API URL, latest-comment URL, and the owning repository. -/
structure RawNotif where
  id : Nat
  reason : String
  subjectType : String
  subjectTitle : String
  subjectURL : String
  latestCommentURL : String
  owner : String
  repo : String
deriving DecidableEq, Repr

/-- The classifier's output value (`Notification` struct in main.go). -/
structure Notification where
  type : String
  message : String
  url : String
deriving DecidableEq, Repr

/-- Outcome of processing one raw notification: at most one alert, plus
whether the upstream thread was marked read (`MarkThreadRead`). -/
structure ProcResult where
  alert : Option Notification
  markRead : Bool
deriving DecidableEq, Repr

/-- The item number parsed from the subject API URL
(`parts := strings.Split(apiURL, "/"); number := parts[len(parts)-1]`). -/
def itemNumOf (n : RawNotif) : Nat :=
  atoi ((n.subjectURL.splitOn "/").getLastD "")

/-- `fmt.Sprintf("📁 %s/%s", owner, repo)`. -/
def repoInfoOf (n : RawNotif) : String :=
  "📁 " ++ n.owner ++ "/" ++ n.repo

/-- `fmt.Sprintf("📝 %s", notif.Subject.GetTitle())`. -/
def titleOf (n : RawNotif) : String :=
  "📝 " ++ n.subjectTitle

/-- The body-mention message of main.go line 505. -/
def mentionBodyMsg (n : RawNotif) (author content : String) : String :=
  repoInfoOf n ++ "\n" ++ titleOf n ++ "\n\n👤 " ++ author ++
    " mentioned you in the " ++ n.subjectType.toLower ++
    " description:\n\n" ++ content

/-- The comment-mention message of main.go line 555. -/
def mentionCommentMsg (n : RawNotif) (author content : String) : String :=
  repoInfoOf n ++ "\n" ++ titleOf n ++ "\n\n👤 " ++ author ++
    " mentioned you in a comment:\n\n" ++ content

/-- The body of the per-notification loop of `checkGitHubNotifications`
after the item detail has been fetched (main.go lines 409–570): staleness
check, then reason-specific message construction. -/
def classifyFetched (w : World) (username : String) (n : RawNotif)
    (itemNum : Nat) (htmlURL : String) (isClosed : Bool) : ProcResult :=
  if isClosed then ⟨none, true⟩
  else
    if n.reason == "review_requested" then
      let requestedBy :=
        if n.subjectType == "PullRequest" then
          match w.getPR n.owner n.repo itemNum with
          | .ok pr => pr.author
          | _ => ""
        else ""
      let message :=
        if requestedBy != "" then
          repoInfoOf n ++ "\n" ++ titleOf n ++ "\n\n👀 " ++ requestedBy ++
            " requested your review on this pull request"
        else
          repoInfoOf n ++ "\n" ++ titleOf n ++
            "\n\n👀 Your review was requested on this pull request"
      ⟨some ⟨n.reason, message, htmlURL⟩, false⟩
    else if n.reason == "mention" then
      let commentURL := n.latestCommentURL
      let hasReplied :=
        match w.listComments n.owner n.repo itemNum with
        | some cs => cs.any fun c => c.author == username
        | none => false
      if hasReplied then ⟨none, true⟩
      else if commentURL == "" || !(containsSub commentURL "/comments/") then
        let fetched :=
          if n.subjectType == "PullRequest" then
            match w.getPR n.owner n.repo itemNum with
            | .ok pr => (pr.author, pr.body)
            | _ => ("", "")
          else if n.subjectType == "Issue" then
            match w.getIssue n.owner n.repo itemNum with
            | .ok issue => (issue.author, issue.body)
            | _ => ("", "")
          else ("", "")
        if fetched.1 == username then ⟨none, true⟩
        else
          ⟨some ⟨n.reason, mentionBodyMsg n fetched.1 (truncateContent fetched.2),
            htmlURL⟩, false⟩
      else
        let commentID := atoi ((commentURL.splitOn "/").getLastD "")
        let fetchedComment :=
          if containsSub commentURL "/issues/comments/" then
            w.getIssueComment n.owner n.repo commentID
          else if containsSub commentURL "/pulls/comments/" then
            w.getPRComment n.owner n.repo commentID
          else
            FetchResult.ok ⟨"", "", 0⟩
        match fetchedComment with
        | .ok c =>
          if c.author == username then ⟨none, true⟩
          else
            ⟨some ⟨n.reason, mentionCommentMsg n c.author (truncateContent c.body),
              htmlURL⟩, false⟩
        | _ => ⟨none, false⟩
    else ⟨none, false⟩

/-- One iteration of the notification loop of `checkGitHubNotifications`:
reason filter, subject-type dispatch, item-detail fetch with 404 handling,
then `classifyFetched`. -/
def processNotif (w : World) (username : String) (n : RawNotif) : ProcResult :=
  if n.reason == "mention" || n.reason == "review_requested" then
    let itemNum := itemNumOf n
    match n.subjectType with
    | "PullRequest" =>
      match w.getPR n.owner n.repo itemNum with
      | .notFound => ⟨none, true⟩
      | .err => ⟨none, false⟩
      | .ok pr =>
        classifyFetched w username n itemNum pr.htmlURL
          (pr.state == "closed" || pr.merged)
    | "Issue" =>
      match w.getIssue n.owner n.repo itemNum with
      | .notFound => ⟨none, true⟩
      | .err => ⟨none, false⟩
      | .ok issue =>
        classifyFetched w username n itemNum issue.htmlURL
          (issue.state == "closed")
    | _ => ⟨none, false⟩
  else ⟨none, false⟩

/-- The review-requested alert built from one search hit (main.go 587–605). -/
def searchAlert (pr : SearchPR) : Notification :=
  let repoParts := pr.repositoryURL.splitOn "/"
  let owner := (repoParts.reverse.getD 1 "")
  let repo := repoParts.getLastD ""
  ⟨"review_requested",
    "📁 " ++ owner ++ "/" ++ repo ++ "\n📝 " ++ pr.title ++ "\n\n👀 " ++
      pr.author ++ " requested your review on this pull request",
    pr.htmlURL⟩

/-- One iteration of the accumulation in `checkGitHubNotifications`: append
the produced alert (if any) and the marked-read event id (if marked). -/
def checkStep (w : World) (username : String)
    (acc : List Notification × List Nat) (n : RawNotif) :
    List Notification × List Nat :=
  let r := processNotif w username n
  (acc.1 ++ (match r.alert with | some a => [a] | none => []),
   acc.2 ++ (if r.markRead then [n.id] else []))

/-- `checkGitHubNotifications` (main.go): classify every raw notification,
then append the review-requested search sweep.  Returns the alert list and
the IDs of events marked read; `.error` only when the search fails with a
non-404 error (detail-fetch failures never surface). -/
def checkGitHubNotifications (w : World) (username : String)
    (notifs : List RawNotif) : Except Unit (List Notification × List Nat) :=
  let step := notifs.foldl (checkStep w username) ([], [])
  match w.searchReviewPRs with
  | .notFound => .ok step
  | .err => .error ()
  | .ok prs => .ok (step.1 ++ prs.map searchAlert, step.2)

/-! ## The classifier of the cmd/monitor variant:
`Client.GetNotifications` (internal/github/notifications.go) -/

/-- A raw notification as consumed by `Client.GetNotifications`. -/
structure RawNotif2 where
  unread : Bool
  reason : String
  repoFullName : String
  title : String
  subjectURL : String
deriving DecidableEq, Repr

/-- `Client.GetNotifications` (internal/github/notifications.go 13–48):
every unread notification is forwarded, with its raw reason as the type. -/
def GetNotifications (ns : List RawNotif2) : List Notification :=
  ns.filterMap fun n =>
    if n.unread then
      some ⟨n.reason, "[" ++ n.repoFullName ++ "] " ++ n.title, n.subjectURL⟩
    else none

/-! ## The poll-cycle orchestrators -/

/-- Observable side effects of one cycle, in execution order: the retention
sweep, a gating decision, a delivery attempt, a ledger write. -/
inductive CycleEvent where
  | sweep : CycleEvent
  | gate (chatID : Int) (itemURL ntype chash : String) (decision : Bool) : CycleEvent
  | deliver (chatID : Int) (itemURL : String) (ok : Bool) : CycleEvent
  | record (chatID : Int) (itemURL ntype chash : String) : CycleEvent
deriving DecidableEq, Repr

/-- Whether an event is a gating decision. -/
def CycleEvent.isGate : CycleEvent → Bool
  | .gate _ _ _ _ _ => true
  | _ => false

/-- The inner notification loop shared by both orchestrators (main.go
750–775 and cmd/monitor/main.go 141–167): hash the message, gate, and on a
positive gate attempt delivery, recording to the ledger only on success.
`hoursUnit` selects the gate variant (`Store.ShouldNotify` counts the
interval in hours, `UserStore.shouldNotify` in seconds).  `deliverOk` is
the message sink's outcome. -/
def runNotifs (now renotifyInterval : Int) (chatID : Int)
    (deliverOk : Int → Notification → Bool) (hashFn : String → String)
    (hoursUnit : Bool) :
    List Notification → List LedgerRow → List LedgerRow × List CycleEvent
  | [], ledger => (ledger, [])
  | n :: rest, ledger =>
    let chash := hashFn n.message
    let g :=
      if hoursUnit then
        ShouldNotify ledger now chatID n.url n.type chash renotifyInterval
      else
        shouldNotify ledger now chatID n.url n.type chash renotifyInterval
    let gateEv := CycleEvent.gate chatID n.url n.type chash g
    if g then
      let dOk := deliverOk chatID n
      let delEv := CycleEvent.deliver chatID n.url dOk
      if dOk then
        let ledger2 := recordNotification ledger chatID n.url n.type chash now
        let next := runNotifs now renotifyInterval chatID deliverOk hashFn hoursUnit rest ledger2
        (next.1, gateEv :: delEv :: CycleEvent.record chatID n.url n.type chash :: next.2)
      else
        let next := runNotifs now renotifyInterval chatID deliverOk hashFn hoursUnit rest ledger
        (next.1, gateEv :: delEv :: next.2)
    else
      let next := runNotifs now renotifyInterval chatID deliverOk hashFn hoursUnit rest ledger
      (next.1, gateEv :: next.2)

/-- One monitored account inside a cycle: its enabled flag and the result of
fetching/classifying its notifications (`none` models a fetch error, which
both orchestrators skip with a log). -/
structure AccountWork where
  isActive : Bool
  notifsResult : Option (List Notification)

/-- One recipient inside a cycle. -/
structure UserWork where
  chatID : Int
  accounts : List AccountWork

/-- The per-user account loop of both orchestrators: inactive accounts and
accounts whose notification fetch failed are skipped. -/
def runAccounts (now renotifyInterval : Int) (chatID : Int)
    (deliverOk : Int → Notification → Bool) (hashFn : String → String)
    (hoursUnit : Bool) :
    List AccountWork → List LedgerRow → List LedgerRow × List CycleEvent
  | [], ledger => (ledger, [])
  | a :: rest, ledger =>
    let here :=
      if a.isActive then
        match a.notifsResult with
        | some ns => runNotifs now renotifyInterval chatID deliverOk hashFn hoursUnit ns ledger
        | none => (ledger, [])
      else (ledger, [])
    let next := runAccounts now renotifyInterval chatID deliverOk hashFn hoursUnit rest here.1
    (next.1, here.2 ++ next.2)

/-- The per-cycle user loop of both orchestrators. -/
def runUsers (now renotifyInterval : Int)
    (deliverOk : Int → Notification → Bool) (hashFn : String → String)
    (hoursUnit : Bool) :
    List UserWork → List LedgerRow → List LedgerRow × List CycleEvent
  | [], ledger => (ledger, [])
  | u :: rest, ledger =>
    let here := runAccounts now renotifyInterval u.chatID deliverOk hashFn hoursUnit u.accounts ledger
    let next := runUsers now renotifyInterval deliverOk hashFn hoursUnit rest here.1
    (next.1, here.2 ++ next.2)

/-- One iteration of the poll loop of `main` (main.go 717–781): the sweep
(`cleanOldNotifications`, seconds unit) runs first, then all users are
processed with the seconds-unit gate. -/
def mainCycle (now renotifyInterval : Int)
    (deliverOk : Int → Notification → Bool) (hashFn : String → String)
    (users : List UserWork) (ledger : List LedgerRow) :
    List LedgerRow × List CycleEvent :=
  let l1 := cleanOldNotifications ledger now renotifyInterval
  let body := runUsers now renotifyInterval deliverOk hashFn false users l1
  (body.1, CycleEvent.sweep :: body.2)

/-- `processNotifications` (cmd/monitor/main.go 116–178): all users are
processed with the hours-unit gate (`Store.ShouldNotify`), and the sweep
(`Store.CleanOldNotifications`, hours unit) runs last. -/
def processNotificationsCycle (now renotifyInterval : Int)
    (deliverOk : Int → Notification → Bool) (hashFn : String → String)
    (users : List UserWork) (ledger : List LedgerRow) :
    List LedgerRow × List CycleEvent :=
  let body := runUsers now renotifyInterval deliverOk hashFn true users ledger
  (CleanOldNotifications body.1 now renotifyInterval,
   body.2 ++ [CycleEvent.sweep])

/-- The temporal property the spec asks for: every sweep event precedes
every gating decision of the cycle. -/
def sweepBeforeGates (tr : List CycleEvent) : Prop :=
  ∀ i j : Fin tr.length,
    tr.get i = CycleEvent.sweep → (tr.get j).isGate = true → i.val < j.val

/-! ## The account registry (users / github_accounts tables) -/

/-- One row of the `github_accounts` table. -/
structure Account where
  chatID : Int
  username : String
  token : String
  isActive : Bool
deriving DecidableEq, Repr

/-- The database state: the `users` table (chat ids, a primary key) and the
`github_accounts` table. -/
structure DBState where
  users : List Int
  accounts : List Account
deriving DecidableEq, Repr

/-- `Store.AddGitHubAccount` / `UserStore.AddGitHubAccount`: in one
transaction, `INSERT INTO users ... ON CONFLICT DO NOTHING`, then upsert the
account row (`ON CONFLICT (chat_id, username) DO UPDATE SET token, is_active
= true`). -/
def addGitHubAccount (s : DBState) (chatID : Int) (token username : String) :
    DBState :=
  let users' := if s.users.contains chatID then s.users else s.users ++ [chatID]
  let accounts' :=
    if s.accounts.any (fun a => a.chatID == chatID && a.username == username) then
      s.accounts.map fun a =>
        if a.chatID == chatID && a.username == username then
          ⟨a.chatID, a.username, token, true⟩
        else a
    else s.accounts ++ [⟨chatID, username, token, true⟩]
  ⟨users', accounts'⟩

/-- `Store.RemoveGitHubAccount` / `UserStore.RemoveGitHubAccount`: delete the
account row, count the chat's remaining accounts, and delete the users row
when none remain. -/
def removeGitHubAccount (s : DBState) (chatID : Int) (username : String) :
    DBState :=
  let accounts' := s.accounts.filter fun a =>
    !(a.chatID == chatID && a.username == username)
  let cnt := accounts'.countP fun a => a.chatID == chatID
  let users' := if cnt == 0 then s.users.filter (fun c => !(c == chatID)) else s.users
  ⟨users', accounts'⟩

/-- `Store.ToggleGitHubAccount`: flip `is_active` on the matching row (the
"account not found" error changes no rows either way). -/
def toggleGitHubAccount (s : DBState) (chatID : Int) (username : String) :
    DBState :=
  ⟨s.users,
   s.accounts.map fun a =>
     if a.chatID == chatID && a.username == username then
       ⟨a.chatID, a.username, a.token, !a.isActive⟩
     else a⟩

/-- The rows `Store.GetUser` scans for a chat
(`SELECT ... FROM github_accounts WHERE chat_id = $1`). -/
def getUserAccounts (s : DBState) (chatID : Int) : List Account :=
  s.accounts.filter fun a => a.chatID == chatID

/-- `Store.GetAllUsers`: every chat id of the users table whose `GetUser`
reports `exists` (at least one scanned account row), with its account set. -/
def getAllUsers (s : DBState) : List (Int × List Account) :=
  s.users.filterMap fun c =>
    let l := getUserAccounts s c
    if l.isEmpty then none else some (c, l)

/-- The database invariant claimed for the registry: every users row is
accompanied by at least one github_accounts row. -/
def dbInv (s : DBState) : Prop :=
  ∀ c ∈ s.users, ∃ a ∈ s.accounts, a.chatID = c

/-- States reachable from the freshly initialised database through the three
mutating registry operations. -/
inductive DBReachable : DBState → Prop where
  | init : DBReachable ⟨[], []⟩
  | add (s : DBState) (chatID : Int) (token username : String) :
      DBReachable s → DBReachable (addGitHubAccount s chatID token username)
  | remove (s : DBState) (chatID : Int) (username : String) :
      DBReachable s → DBReachable (removeGitHubAccount s chatID username)
  | toggle (s : DBState) (chatID : Int) (username : String) :
      DBReachable s → DBReachable (toggleGitHubAccount s chatID username)

/-! ## Sample data for concrete instantiations -/

/-- An open issue/PR detail authored by alice. -/
def sampleOpen : ItemDetail :=
  ⟨"open", false, "alice", "issue body", "https://github.com/o/r/issues/7"⟩

/-- A closed issue/PR detail authored by alice. -/
def sampleClosed : ItemDetail :=
  ⟨"closed", false, "alice", "issue body", "https://github.com/o/r/issues/7"⟩

/-- A remote world where every item is open and authored by alice, with no
comments on any item. -/
def wOpen : World :=
  ⟨fun _ _ _ => .ok sampleOpen, fun _ _ _ => .ok sampleOpen,
   fun _ _ _ => some [], fun _ _ _ => .ok ⟨"carol", "cbody", 10⟩,
   fun _ _ _ => .ok ⟨"dave", "pbody", 11⟩, .ok []⟩

/-- A remote world where every item is closed. -/
def wClosed : World :=
  ⟨fun _ _ _ => .ok sampleClosed, fun _ _ _ => .ok sampleClosed,
   fun _ _ _ => some [], fun _ _ _ => .ok ⟨"carol", "cbody", 10⟩,
   fun _ _ _ => .ok ⟨"dave", "pbody", 11⟩, .ok []⟩

/-- A remote world where every detail fetch 404s. -/
def w404 : World :=
  ⟨fun _ _ _ => .notFound, fun _ _ _ => .notFound,
   fun _ _ _ => some [], fun _ _ _ => .notFound, fun _ _ _ => .notFound,
   .ok []⟩

/-- A remote world where every item is open but bob has already commented. -/
def wReplied : World :=
  ⟨fun _ _ _ => .ok sampleOpen, fun _ _ _ => .ok sampleOpen,
   fun _ _ _ => some [⟨"bob", "my reply", 50⟩],
   fun _ _ _ => .ok ⟨"carol", "cbody", 10⟩,
   fun _ _ _ => .ok ⟨"dave", "pbody", 11⟩, .ok []⟩

/-- A remote world where every item and comment is authored by bob
himself, with no comments listed on the items. -/
def wSelf : World :=
  ⟨fun _ _ _ => .ok ⟨"open", false, "bob", "pr body", "u"⟩,
   fun _ _ _ => .ok ⟨"open", false, "bob", "issue body", "u"⟩,
   fun _ _ _ => some [],
   fun _ _ _ => .ok ⟨"bob", "cbody", 1⟩,
   fun _ _ _ => .ok ⟨"bob", "pbody", 2⟩, .ok []⟩

/-- A mention of bob in the body of issue 7 of o/r. -/
def nMentionBody : RawNotif :=
  ⟨1, "mention", "Issue", "T", "https://api.github.com/repos/o/r/issues/7", "", "o", "r"⟩

/-- A mention of bob in issue comment 42 of issue 7 of o/r. -/
def nMentionComment : RawNotif :=
  ⟨2, "mention", "Issue", "T", "https://api.github.com/repos/o/r/issues/7",
   "https://api.github.com/repos/o/r/issues/comments/42", "o", "r"⟩

/-- An event with a reason the classifier does not handle. -/
def nAssign : RawNotif :=
  ⟨3, "assign", "Issue", "T", "https://api.github.com/repos/o/r/issues/7", "", "o", "r"⟩

/-- A review request on PR 9 of o/r. -/
def nReview : RawNotif :=
  ⟨4, "review_requested", "PullRequest", "T",
   "https://api.github.com/repos/o/r/pulls/9", "", "o", "r"⟩

/-! ## Theorems -/

/-- C1 counterexample: the claim says `ShouldNotify` gates with the
cool-down in seconds, but on a ledger whose only matching row is 2 seconds
old and a cool-down of 1 second `Store.ShouldNotify` still suppresses
(it multiplies the interval by an hour), while the seconds-based gate of
the claim delivers. -/
theorem C1_counterexample :
    ShouldNotify [⟨1, "u", "t", "h", 0⟩] 2 1 "u" "t" "h" 1 = false ∧
    gateSpecSeconds [⟨1, "u", "t", "h", 0⟩] 2 1 "u" "t" "h" 1 = true := by
  exact ⟨rfl, rfl⟩

/-- C1 (amended): for every gating key and cool-down value, both gate
variants return true when no ledger row matches all four key fields;
when a match exists, `UserStore.shouldNotify` returns true iff the elapsed
time since the most recent matching row exceeds the cool-down in seconds,
while `Store.ShouldNotify` interprets the same cool-down parameter in hours
(true iff the elapsed seconds exceed `coolDown * 3600`); and a negative
decision performs no ledger write. -/
theorem C1_gate_semantics (ledger : List LedgerRow) (now chatID : Int)
    (itemURL ntype chash : String) (coolDown : Int) :
    (shouldNotify ledger now chatID itemURL ntype chash coolDown =
      gateSpecSeconds ledger now chatID itemURL ntype chash coolDown) ∧
    (matchingRows ledger chatID itemURL ntype chash = [] →
      shouldNotify ledger now chatID itemURL ntype chash coolDown = true ∧
      ShouldNotify ledger now chatID itemURL ntype chash coolDown = true) ∧
    (∀ t, latestCreatedAt (matchingRows ledger chatID itemURL ntype chash) = some t →
      (shouldNotify ledger now chatID itemURL ntype chash coolDown = true ↔
        now - t > coolDown) ∧
      (ShouldNotify ledger now chatID itemURL ntype chash coolDown = true ↔
        now - t > coolDown * 3600)) ∧
    (∀ (n : Notification) (deliverOk : Int → Notification → Bool)
        (hashFn : String → String) (hoursUnit : Bool),
      (if hoursUnit then
        ShouldNotify ledger now chatID n.url n.type (hashFn n.message) coolDown
      else
        shouldNotify ledger now chatID n.url n.type (hashFn n.message) coolDown) = false →
      (runNotifs now coolDown chatID deliverOk hashFn hoursUnit [n] ledger).1 = ledger) := by
  refine ⟨rfl, ?_, ?_, ?_⟩
  · intro h
    constructor <;> simp [shouldNotify, ShouldNotify, h, latestCreatedAt]
  · intro t ht
    constructor <;> simp [shouldNotify, ShouldNotify, ht]
  · intro n deliverOk hashFn hoursUnit hg
    simp only [runNotifs, hg]
    simp [runNotifs]

/-- C1 witness: with one matching row 2 seconds old and a cool-down of 1,
the seconds gate delivers and the hours gate compares against 3600. -/
theorem C1_gate_semantics_witness :
    (shouldNotify [⟨1, "u", "t", "h", 0⟩] 2 1 "u" "t" "h" 1 = true ↔
      (2 : Int) - 0 > 1) ∧
    (ShouldNotify [⟨1, "u", "t", "h", 0⟩] 2 1 "u" "t" "h" 1 = true ↔
      (2 : Int) - 0 > 1 * 3600) :=
  (C1_gate_semantics [⟨1, "u", "t", "h", 0⟩] 2 1 "u" "t" "h" 1).2.2.1 0 rfl

/-- The notification loop emits no sweep event. -/
theorem sweep_notin_runNotifs (now i chatID : Int)
    (dOk : Int → Notification → Bool) (hashFn : String → String)
    (hoursUnit : Bool) :
    ∀ (ns : List Notification) (ledger : List LedgerRow),
      CycleEvent.sweep ∉ (runNotifs now i chatID dOk hashFn hoursUnit ns ledger).2 := by
  intro ns
  induction ns with
  | nil => intro ledger; simp [runNotifs]
  | cons n rest ih =>
    intro ledger
    by_cases hg :
        (if hoursUnit then
          ShouldNotify ledger now chatID n.url n.type (hashFn n.message) i
        else
          shouldNotify ledger now chatID n.url n.type (hashFn n.message) i) = true
    · by_cases hd : dOk chatID n = true
      · simp only [runNotifs, hg, hd]
        simp [ih]
      · simp only [runNotifs, hg, hd]
        simp [hd, ih]
    · simp only [runNotifs]
      rw [if_neg (by simpa using hg)]
      simp [ih]

/-- The account loop emits no sweep event. -/
theorem sweep_notin_runAccounts (now i chatID : Int)
    (dOk : Int → Notification → Bool) (hashFn : String → String)
    (hoursUnit : Bool) :
    ∀ (accs : List AccountWork) (ledger : List LedgerRow),
      CycleEvent.sweep ∉ (runAccounts now i chatID dOk hashFn hoursUnit accs ledger).2 := by
  intro accs
  induction accs with
  | nil => intro ledger; simp [runAccounts]
  | cons a rest ih =>
    intro ledger
    simp only [runAccounts, List.mem_append]
    rintro (h | h)
    · revert h
      split
      · split
        · exact sweep_notin_runNotifs _ _ _ _ _ _ _ _
        · simp
      · simp
    · exact ih _ h

/-- The user loop emits no sweep event. -/
theorem sweep_notin_runUsers (now i : Int)
    (dOk : Int → Notification → Bool) (hashFn : String → String)
    (hoursUnit : Bool) :
    ∀ (users : List UserWork) (ledger : List LedgerRow),
      CycleEvent.sweep ∉ (runUsers now i dOk hashFn hoursUnit users ledger).2 := by
  intro users
  induction users with
  | nil => intro ledger; simp [runUsers]
  | cons u rest ih =>
    intro ledger
    simp only [runUsers, List.mem_append]
    rintro (h | h)
    · exact sweep_notin_runAccounts _ _ _ _ _ _ _ _ h
    · exact ih _ h

/-- A trace that opens with its only sweep puts the sweep before every
gating decision. -/
theorem sweepBeforeGates_of_head (body : List CycleEvent)
    (hb : CycleEvent.sweep ∉ body) :
    sweepBeforeGates (CycleEvent.sweep :: body) := by
  intro i j hi hj
  rcases i with ⟨iv, hvi⟩
  rcases j with ⟨jv, hvj⟩
  cases iv with
  | succ k =>
    exfalso
    apply hb
    have hk : k < body.length := Nat.lt_of_succ_lt_succ hvi
    have hgi : (CycleEvent.sweep :: body).get ⟨k + 1, hvi⟩ = body.get ⟨k, hk⟩ := rfl
    rw [hgi] at hi
    rw [← hi]
    exact body.get_mem k hk
  | zero =>
    cases jv with
    | zero => simp [CycleEvent.isGate] at hj
    | succ k2 => exact Nat.succ_pos _

/-- C3 counterexample: a cycle of `processNotifications`
(cmd/monitor/main.go) with one user, one active account and one
notification performs its gating decision before the retention sweep, so
the sweep does not precede the cycle's gating decisions. -/
theorem C3_counterexample :
    ¬ sweepBeforeGates
        (processNotificationsCycle 100 50 (fun _ _ => true) (fun s => s)
          [⟨5, [⟨true, some [⟨"mention", "m1", "u1"⟩]⟩]⟩] []).2 := by
  unfold sweepBeforeGates
  decide

/-- C3 (amended): in the poll loop of main.go the retention sweep runs
before every gating decision of the cycle, but in `processNotifications`
(cmd/monitor/main.go) the sweep runs at the end of the cycle, after all of
that cycle's gating decisions. -/
theorem C3_sweep_order (now coolDown : Int)
    (deliverOk : Int → Notification → Bool) (hashFn : String → String)
    (users : List UserWork) (ledger : List LedgerRow) :
    sweepBeforeGates (mainCycle now coolDown deliverOk hashFn users ledger).2 ∧
    ∃ body,
      (processNotificationsCycle now coolDown deliverOk hashFn users ledger).2 =
        body ++ [CycleEvent.sweep] ∧
      CycleEvent.sweep ∉ body := by
  constructor
  · exact sweepBeforeGates_of_head _ (sweep_notin_runUsers _ _ _ _ _ _ _)
  · exact ⟨_, rfl, sweep_notin_runUsers _ _ _ _ _ _ _⟩

/-- C3 instantiation on a concrete cycle input. -/
theorem C3_sweep_order_witness :
    sweepBeforeGates
      (mainCycle 100 50 (fun _ _ => true) (fun s => s)
        [⟨5, [⟨true, some [⟨"mention", "m1", "u1"⟩]⟩]⟩] []).2 :=
  (C3_sweep_order 100 50 (fun _ _ => true) (fun s => s)
    [⟨5, [⟨true, some [⟨"mention", "m1", "u1"⟩]⟩]⟩] []).1

/-- C6: once an alert has passed the gate, a successful delivery appends
exactly one ledger row, and the record event follows the delivery event;
a failed delivery writes nothing, leaving the ledger unchanged (so the
identical alert faces the same gate next cycle). -/
theorem C6_record_only_after_delivery (now coolDown chatID : Int)
    (deliverOk : Int → Notification → Bool) (hashFn : String → String)
    (hoursUnit : Bool) (n : Notification) (ledger : List LedgerRow)
    (hg : (if hoursUnit then
        ShouldNotify ledger now chatID n.url n.type (hashFn n.message) coolDown
      else
        shouldNotify ledger now chatID n.url n.type (hashFn n.message) coolDown) = true) :
    (deliverOk chatID n = true →
      runNotifs now coolDown chatID deliverOk hashFn hoursUnit [n] ledger =
        (ledger ++ [⟨chatID, n.url, n.type, hashFn n.message, now⟩],
         [CycleEvent.gate chatID n.url n.type (hashFn n.message) true,
          CycleEvent.deliver chatID n.url true,
          CycleEvent.record chatID n.url n.type (hashFn n.message)])) ∧
    (deliverOk chatID n = false →
      runNotifs now coolDown chatID deliverOk hashFn hoursUnit [n] ledger =
        (ledger,
         [CycleEvent.gate chatID n.url n.type (hashFn n.message) true,
          CycleEvent.deliver chatID n.url false])) := by
  constructor <;> intro hd <;>
    simp [runNotifs, hg, hd, recordNotification]

/-- C6 witness: a concrete alert that passes the gate; delivered, it is
recorded exactly once after the delivery event. -/
theorem C6_record_only_after_delivery_witness :
    runNotifs 100 50 5 (fun _ _ => true) (fun s => s) false
        [⟨"mention", "m1", "u1"⟩] [] =
      ([⟨5, "u1", "mention", "m1", 100⟩],
       [CycleEvent.gate 5 "u1" "mention" "m1" true,
        CycleEvent.deliver 5 "u1" true,
        CycleEvent.record 5 "u1" "mention" "m1"]) :=
  (C6_record_only_after_delivery 100 50 5 (fun _ _ => true) (fun s => s) false
    ⟨"mention", "m1", "u1"⟩ [] rfl).1 rfl

/-- If a recipient comment exists in the item's comment list, the mention
branch of `classifyFetched` marks the thread read and yields no alert,
whatever the item's state. -/
theorem classifyFetched_replied (w : World) (username : String) (n : RawNotif)
    (itemNum : Nat) (htmlURL : String) (isClosed : Bool) (cs : List Comment)
    (hreason : n.reason = "mention")
    (hcs : w.listComments n.owner n.repo itemNum = some cs)
    (hreply : cs.any (fun c => c.author == username) = true) :
    classifyFetched w username n itemNum htmlURL isClosed = ⟨none, true⟩ := by
  unfold classifyFetched
  by_cases hc : isClosed
  · simp [hc]
  · simp [hc, hreason, hcs, hreply]

/-- C2: for every mention event whose item detail resolves and whose comment
listing succeeds, if the recipient has already commented on the item after
the mention's reference point (or anywhere on it, when the mention carries
no comment reference — either way a recipient comment is in the list), the
classifier produces no alert and the upstream event is marked read. -/
theorem C2_reply_suppression (w : World) (username : String) (n : RawNotif)
    (cs : List Comment) (refT : Int)
    (hreason : n.reason = "mention")
    (hsub : (n.subjectType = "PullRequest" ∧
              ∃ d, w.getPR n.owner n.repo (itemNumOf n) = .ok d) ∨
            (n.subjectType = "Issue" ∧
              ∃ d, w.getIssue n.owner n.repo (itemNumOf n) = .ok d))
    (hcs : w.listComments n.owner n.repo (itemNumOf n) = some cs)
    (hreply : ∃ c ∈ cs, c.author = username ∧ refT < c.createdAt) :
    processNotif w username n = ⟨none, true⟩ := by
  have hany : cs.any (fun c => c.author == username) = true := by
    obtain ⟨c, hmem, hauth, _⟩ := hreply
    exact List.any_eq_true.mpr ⟨c, hmem, by simp [hauth]⟩
  rcases hsub with ⟨hpt, d, hd⟩ | ⟨hit, d, hd⟩
  · simp only [processNotif, hreason, hpt, hd]
    simp only [show ((("mention" : String) == "mention") ||
      (("mention" : String) == "review_requested")) = true from rfl, if_true]
    exact classifyFetched_replied w username n (itemNumOf n) d.htmlURL _ cs hreason hcs hany
  · simp only [processNotif, hreason, hit, hd]
    simp only [show ((("mention" : String) == "mention") ||
      (("mention" : String) == "review_requested")) = true from rfl, if_true]
    exact classifyFetched_replied w username n (itemNumOf n) d.htmlURL _ cs hreason hcs hany

/-- C2 witness: bob was mentioned in a comment on issue 7, but bob has a
later comment on the issue; the event is dropped and marked read. -/
theorem C2_reply_suppression_witness :
    processNotif wReplied "bob" nMentionComment = ⟨none, true⟩ :=
  C2_reply_suppression wReplied "bob" nMentionComment [⟨"bob", "my reply", 50⟩] 10
    rfl (Or.inr ⟨rfl, sampleOpen, rfl⟩) rfl
    ⟨⟨"bob", "my reply", 50⟩, by simp, rfl, by decide⟩

/-- A closed (or merged) item short-circuits classification: marked read,
no alert. -/
theorem classifyFetched_closed (w : World) (username : String) (n : RawNotif)
    (itemNum : Nat) (htmlURL : String) :
    classifyFetched w username n itemNum htmlURL true = ⟨none, true⟩ := by
  simp [classifyFetched]

/-- C4 counterexample: the referenced issue is closed, yet the event — whose
reason `assign` the classifier does not handle — is not marked consumed
(the claim asserts it is marked consumed regardless of reason). -/
theorem C4_counterexample :
    wClosed.getIssue "o" "r" 7 = .ok sampleClosed ∧
    sampleClosed.state = "closed" ∧
    processNotif wClosed "bob" nAssign = ⟨none, false⟩ :=
  ⟨rfl, rfl, rfl⟩

/-- C4 (amended): for raw events with reason mention or review-requested,
an item that resolves closed (or a merged pull request) produces no alert
and the event is marked consumed; events with any other reason produce no
alert either, but are skipped without being marked consumed. -/
theorem C4_stale_suppression (w : World) (username : String) (n : RawNotif) :
    ((n.reason = "mention" ∨ n.reason = "review_requested") →
      (∀ d, n.subjectType = "PullRequest" →
        w.getPR n.owner n.repo (itemNumOf n) = .ok d →
        (d.state = "closed" ∨ d.merged = true) →
        processNotif w username n = ⟨none, true⟩) ∧
      (∀ d, n.subjectType = "Issue" →
        w.getIssue n.owner n.repo (itemNumOf n) = .ok d →
        d.state = "closed" →
        processNotif w username n = ⟨none, true⟩)) ∧
    (n.reason ≠ "mention" → n.reason ≠ "review_requested" →
      processNotif w username n = ⟨none, false⟩) := by
  constructor
  · intro hr
    constructor
    · intro d hpt hd hcl
      have hb : (d.state == "closed" || d.merged) = true := by
        rcases hcl with h | h <;> simp [h]
      rcases hr with hr | hr <;>
        simp [processNotif, hr, hpt, hd, hb, classifyFetched_closed]
    · intro d hit hd hcl
      have hb : (d.state == "closed") = true := by simp [hcl]
      rcases hr with hr | hr <;>
        simp [processNotif, hr, hit, hd, hb, classifyFetched_closed]
  · intro h1 h2
    unfold processNotif
    rw [if_neg (by simp [h1, h2])]

/-- C4 instantiation: a mention on a closed issue is dropped and marked
read. -/
theorem C4_stale_suppression_witness :
    processNotif wClosed "bob" nMentionBody = ⟨none, true⟩ :=
  ((C4_stale_suppression wClosed "bob" nMentionBody).1 (Or.inl rfl)).2
    sampleClosed rfl rfl rfl

/-- C5: a 404 on the item-detail fetch marks the event read and produces no
alert; any other detail-fetch failure skips the event without marking it;
and the cycle surfaces no error as long as the search sweep succeeds. -/
theorem C5_notfound_stale (w : World) (username : String) (n : RawNotif)
    (notifs : List RawNotif) :
    ((n.reason = "mention" ∨ n.reason = "review_requested") →
      (n.subjectType = "PullRequest" →
        w.getPR n.owner n.repo (itemNumOf n) = .notFound →
        processNotif w username n = ⟨none, true⟩) ∧
      (n.subjectType = "Issue" →
        w.getIssue n.owner n.repo (itemNumOf n) = .notFound →
        processNotif w username n = ⟨none, true⟩) ∧
      (n.subjectType = "PullRequest" →
        w.getPR n.owner n.repo (itemNumOf n) = .err →
        processNotif w username n = ⟨none, false⟩) ∧
      (n.subjectType = "Issue" →
        w.getIssue n.owner n.repo (itemNumOf n) = .err →
        processNotif w username n = ⟨none, false⟩)) ∧
    (∀ prs, w.searchReviewPRs = .ok prs →
      ∃ out, checkGitHubNotifications w username notifs = .ok out) := by
  constructor
  · intro hr
    refine ⟨?_, ?_, ?_, ?_⟩ <;> intro hst hd <;>
      rcases hr with hr | hr <;> simp [processNotif, hr, hst, hd]
  · intro prs hs
    simp [checkGitHubNotifications, hs]

/-- C5 witness: a mention whose PR detail 404s is marked read with no alert,
and the cycle returns without error. -/
theorem C5_notfound_stale_witness :
    processNotif w404 "bob" nMentionBody = ⟨none, true⟩ ∧
    ∃ out, checkGitHubNotifications w404 "bob" [nMentionBody] = .ok out :=
  ⟨((C5_notfound_stale w404 "bob" nMentionBody [nMentionBody]).1 (Or.inl rfl)).2.1
      rfl rfl,
   (C5_notfound_stale w404 "bob" nMentionBody [nMentionBody]).2 [] rfl⟩

/-- Projection helper: an alert read off a literal `ProcResult`. -/
theorem procResult_alert_eq (x a : Notification) (b : Bool)
    (h : (⟨some x, b⟩ : ProcResult).alert = some a) : a = x :=
  (Option.some.inj h).symm

set_option maxHeartbeats 1000000

/-- Every alert built by `classifyFetched` carries the raw event's reason as
its type. -/
theorem classifyFetched_alert_type (w : World) (username : String)
    (n : RawNotif) (itemNum : Nat) (htmlURL : String) (isClosed : Bool)
    (a : Notification)
    (h : (classifyFetched w username n itemNum htmlURL isClosed).alert = some a) :
    a.type = n.reason := by
  simp only [classifyFetched] at h
  repeat' split at h
  all_goals first
    | (rw [procResult_alert_eq _ _ _ h])
    | simp at h

/-- Every alert built by `processNotif` is of type mention or
review_requested. -/
theorem processNotif_alert_type (w : World) (username : String) (n : RawNotif)
    (a : Notification) (h : (processNotif w username n).alert = some a) :
    a.type = "mention" ∨ a.type = "review_requested" := by
  simp only [processNotif] at h
  by_cases hcond : ((n.reason == "mention") || (n.reason == "review_requested")) = true
  · rw [if_pos hcond] at h
    have hty : a.type = n.reason := by
      split at h
      · split at h
        · simp at h
        · simp at h
        · exact classifyFetched_alert_type _ _ _ _ _ _ _ h
      · split at h
        · simp at h
        · simp at h
        · exact classifyFetched_alert_type _ _ _ _ _ _ _ h
      · simp at h
    rw [hty]
    simpa using hcond
  · rw [if_neg hcond] at h
    simp at h

/-- Every alert accumulated by the notification fold either was already in
the accumulator or was produced by `processNotif` on a listed event. -/
theorem mem_checkFold (w : World) (username : String) :
    ∀ (notifs : List RawNotif) (acc : List Notification × List Nat)
      (a : Notification),
      a ∈ (notifs.foldl (checkStep w username) acc).1 →
      a ∈ acc.1 ∨ ∃ n, n ∈ notifs ∧ (processNotif w username n).alert = some a := by
  intro notifs
  induction notifs with
  | nil => intro acc a h; exact Or.inl h
  | cons n rest ih =>
    intro acc a h
    rw [List.foldl_cons] at h
    rcases ih _ a h with h1 | ⟨m, hm, ha⟩
    · unfold checkStep at h1
      rcases List.mem_append.mp h1 with h2 | h2
      · exact Or.inl h2
      · right
        refine ⟨n, List.mem_cons_self _ _, ?_⟩
        revert h2
        cases hal : (processNotif w username n).alert with
        | some x =>
          intro h2
          simp at h2
          rw [h2]
        | none => intro h2; simp at h2
    · exact Or.inr ⟨m, List.mem_cons_of_mem _ hm, ha⟩

/-- C7 counterexample: `Client.GetNotifications`
(internal/github/notifications.go) forwards an unread event whose reason is
`assign` as an alert, so the classifier of that variant emits types other
than mention and review_requested. -/
theorem C7_counterexample :
    ∃ a ∈ GetNotifications [⟨true, "assign", "o/r", "T", "u"⟩],
      a.type ≠ "mention" ∧ a.type ≠ "review_requested" := by
  decide

/-- C7 (amended): every alert emitted by `checkGitHubNotifications`
(main.go) has type mention or review_requested — events with any other
reason produce no alert there — but `Client.GetNotifications`
(internal/github/notifications.go) forwards every unread raw event with its
raw reason as the alert type, whatever that reason is. -/
theorem C7_alert_types (w : World) (username : String)
    (notifs : List RawNotif) (out : List Notification × List Nat)
    (h : checkGitHubNotifications w username notifs = .ok out) :
    (∀ a ∈ out.1, a.type = "mention" ∨ a.type = "review_requested") ∧
    (∀ (ns : List RawNotif2) (n : RawNotif2), n ∈ ns → n.unread = true →
      (⟨n.reason, "[" ++ n.repoFullName ++ "] " ++ n.title, n.subjectURL⟩ :
        Notification) ∈ GetNotifications ns) := by
  constructor
  · intro a ha
    unfold checkGitHubNotifications at h
    rcases hs : w.searchReviewPRs with prs | _ | _ <;> rw [hs] at h
    · cases h
      rcases List.mem_append.mp ha with h1 | h1
      · rcases mem_checkFold w username notifs ([], []) a h1 with h2 | ⟨m, _, hm⟩
        · simp at h2
        · exact processNotif_alert_type w username m a hm
      · rcases List.mem_map.mp h1 with ⟨pr, _, hpr⟩
        right
        rw [← hpr]
        rfl
    · cases h
      rcases mem_checkFold w username notifs ([], []) a ha with h2 | ⟨m, _, hm⟩
      · simp at h2
      · exact processNotif_alert_type w username m a hm
    · cases h
  · intro ns n hmem hun
    unfold GetNotifications
    exact List.mem_filterMap.mpr ⟨n, hmem, by simp [hun]⟩

/-- C7 instantiation: a cycle over one mention event on a closed item
returns successfully, so every alert of its output obeys the type bound. -/
theorem C7_alert_types_witness :
    (∀ a ∈ (([], [1]) : List Notification × List Nat).1,
      a.type = "mention" ∨ a.type = "review_requested") ∧
    (∀ (ns : List RawNotif2) (n : RawNotif2), n ∈ ns → n.unread = true →
      (⟨n.reason, "[" ++ n.repoFullName ++ "] " ++ n.title, n.subjectURL⟩ :
        Notification) ∈ GetNotifications ns) :=
  C7_alert_types wClosed "bob" [nMentionBody] ([], [1]) rfl

/-- C8: for every mention event whose item detail resolves, a body mention
whose resolved item author equals the recipient, or a comment mention whose
resolved comment author equals the recipient, produces no alert and the
upstream event is marked read. -/
theorem C8_self_mention_suppression (w : World) (username : String)
    (n : RawNotif) (d : ItemDetail) (c : Comment)
    (hreason : n.reason = "mention")
    (hsub : (n.subjectType = "PullRequest" ∧
              w.getPR n.owner n.repo (itemNumOf n) = .ok d) ∨
            (n.subjectType = "Issue" ∧
              w.getIssue n.owner n.repo (itemNumOf n) = .ok d)) :
    ((n.latestCommentURL = "" ∨
        containsSub n.latestCommentURL "/comments/" = false) →
      d.author = username →
      processNotif w username n = ⟨none, true⟩) ∧
    (containsSub n.latestCommentURL "/comments/" = true →
      ((containsSub n.latestCommentURL "/issues/comments/" = true ∧
          w.getIssueComment n.owner n.repo
            (atoi ((n.latestCommentURL.splitOn "/").getLastD "")) = .ok c) ∨
       (containsSub n.latestCommentURL "/issues/comments/" = false ∧
          containsSub n.latestCommentURL "/pulls/comments/" = true ∧
          w.getPRComment n.owner n.repo
            (atoi ((n.latestCommentURL.splitOn "/").getLastD "")) = .ok c)) →
      c.author = username →
      processNotif w username n = ⟨none, true⟩) := by
  constructor
  · intro hb hauth
    rcases hsub with ⟨hpt, hd⟩ | ⟨hit, hd⟩
    · simp only [processNotif, hreason, hpt, hd]
      simp only [show ((("mention" : String) == "mention") ||
        (("mention" : String) == "review_requested")) = true from rfl, if_true]
      unfold classifyFetched
      by_cases hcl : (d.state == "closed" || d.merged) = true
      · simp [hcl]
      · by_cases hrep : (match w.listComments n.owner n.repo (itemNumOf n) with
            | some cs => cs.any fun c2 => c2.author == username
            | none => false) = true
        · simp [hcl, hrep, hreason]
        · have hcond : (n.latestCommentURL == "" ||
              !containsSub n.latestCommentURL "/comments/") = true := by
            rcases hb with hb | hb <;> simp [hb]
          simp [hcl, hrep, hreason, hcond, hpt, hd, hauth]
    · simp only [processNotif, hreason, hit, hd]
      simp only [show ((("mention" : String) == "mention") ||
        (("mention" : String) == "review_requested")) = true from rfl, if_true]
      unfold classifyFetched
      by_cases hcl : (d.state == "closed") = true
      · simp [hcl]
      · by_cases hrep : (match w.listComments n.owner n.repo (itemNumOf n) with
            | some cs => cs.any fun c2 => c2.author == username
            | none => false) = true
        · simp [hcl, hrep, hreason]
        · have hcond : (n.latestCommentURL == "" ||
              !containsSub n.latestCommentURL "/comments/") = true := by
            rcases hb with hb | hb <;> simp [hb]
          simp [hcl, hrep, hreason, hcond, hit, hd, hauth]
  · intro hcsub hshape hcauth
    have hne : (n.latestCommentURL == "") = false := by
      by_cases hb : n.latestCommentURL = ""
      · rw [hb] at hcsub
        exact absurd hcsub (by decide)
      · simp [hb]
    have hcond : (n.latestCommentURL == "" ||
        !containsSub n.latestCommentURL "/comments/") = false := by
      simp [hne, hcsub]
    rcases hsub with ⟨hpt, hd⟩ | ⟨hit, hd⟩
    · simp only [processNotif, hreason, hpt, hd]
      simp only [show ((("mention" : String) == "mention") ||
        (("mention" : String) == "review_requested")) = true from rfl, if_true]
      unfold classifyFetched
      by_cases hcl : (d.state == "closed" || d.merged) = true
      · simp [hcl]
      · by_cases hrep : (match w.listComments n.owner n.repo (itemNumOf n) with
            | some cs => cs.any fun c2 => c2.author == username
            | none => false) = true
        · simp [hcl, hrep, hreason]
        · rcases hshape with ⟨hsh, hget⟩ | ⟨hsh1, hsh2, hget⟩
          · simp only [List.getLastD_eq_getLast?] at hget
            simp [hcl, hrep, hreason, hcond, hsh, hget, hcauth]
          · simp only [List.getLastD_eq_getLast?] at hget
            simp [hcl, hrep, hreason, hcond, hsh1, hsh2, hget, hcauth]
    · simp only [processNotif, hreason, hit, hd]
      simp only [show ((("mention" : String) == "mention") ||
        (("mention" : String) == "review_requested")) = true from rfl, if_true]
      unfold classifyFetched
      by_cases hcl : (d.state == "closed") = true
      · simp [hcl]
      · by_cases hrep : (match w.listComments n.owner n.repo (itemNumOf n) with
            | some cs => cs.any fun c2 => c2.author == username
            | none => false) = true
        · simp [hcl, hrep, hreason]
        · rcases hshape with ⟨hsh, hget⟩ | ⟨hsh1, hsh2, hget⟩
          · simp only [List.getLastD_eq_getLast?] at hget
            simp [hcl, hrep, hreason, hcond, hsh, hget, hcauth]
          · simp only [List.getLastD_eq_getLast?] at hget
            simp [hcl, hrep, hreason, hcond, hsh1, hsh2, hget, hcauth]

/-- C8 witness: bob mentioned in the body of his own issue, and bob
mentioned in his own comment; both events are dropped and marked read. -/
theorem C8_self_mention_suppression_witness :
    processNotif wSelf "bob" nMentionBody = ⟨none, true⟩ ∧
    processNotif wSelf "bob" nMentionComment = ⟨none, true⟩ :=
  ⟨(C8_self_mention_suppression wSelf "bob" nMentionBody
      ⟨"open", false, "bob", "issue body", "u"⟩ ⟨"bob", "cbody", 1⟩ rfl
      (Or.inr ⟨rfl, rfl⟩)).1 (Or.inl rfl) rfl,
   (C8_self_mention_suppression wSelf "bob" nMentionComment
      ⟨"open", false, "bob", "issue body", "u"⟩ ⟨"bob", "cbody", 1⟩ rfl
      (Or.inr ⟨rfl, rfl⟩)).2 (by decide) (Or.inl ⟨by decide, rfl⟩) rfl⟩

/-- C9: the rendered mention content is truncated exactly as claimed: a
body of more than 300 characters becomes its first 297 characters plus a
three-character ellipsis (total 300), a body of at most 300 characters is
kept verbatim, and the truncated content is what is embedded in the alert
message for both description mentions and comment mentions. -/
theorem C9_truncation (w : World) (username : String) (n : RawNotif)
    (d : ItemDetail) (cs : List Comment) (c : Comment) :
    (∀ s : String, (truncateContent s).length ≤ 300 ∧
      (s.length > 300 →
        truncateContent s = String.mk (s.data.take 297 ++ ['.', '.', '.'])) ∧
      (s.length ≤ 300 → truncateContent s = s)) ∧
    (n.reason = "mention" → n.subjectType = "Issue" →
      w.getIssue n.owner n.repo (itemNumOf n) = .ok d →
      (d.state == "closed") = false →
      w.listComments n.owner n.repo (itemNumOf n) = some cs →
      cs.any (fun c2 => c2.author == username) = false →
      n.latestCommentURL = "" →
      (d.author == username) = false →
      processNotif w username n =
        ⟨some ⟨n.reason, mentionBodyMsg n d.author (truncateContent d.body),
          d.htmlURL⟩, false⟩) ∧
    (n.reason = "mention" → n.subjectType = "Issue" →
      w.getIssue n.owner n.repo (itemNumOf n) = .ok d →
      (d.state == "closed") = false →
      w.listComments n.owner n.repo (itemNumOf n) = some cs →
      cs.any (fun c2 => c2.author == username) = false →
      containsSub n.latestCommentURL "/comments/" = true →
      containsSub n.latestCommentURL "/issues/comments/" = true →
      w.getIssueComment n.owner n.repo
        (atoi ((n.latestCommentURL.splitOn "/").getLastD "")) = .ok c →
      (c.author == username) = false →
      processNotif w username n =
        ⟨some ⟨n.reason, mentionCommentMsg n c.author (truncateContent c.body),
          d.htmlURL⟩, false⟩) := by
  refine ⟨?_, ?_, ?_⟩
  · intro s
    refine ⟨?_, ?_, ?_⟩
    · by_cases h : s.length > 300
      · rw [truncateContent, if_pos h]
        show (s.data.take 297 ++ ['.', '.', '.']).length ≤ 300
        simp
      · rw [truncateContent, if_neg h]
        omega
    · intro h
      rw [truncateContent, if_pos h]
    · intro h
      rw [truncateContent, if_neg (by omega)]
  · intro hreason hit hd hop hcs hnorep hurl hna
    simp only [processNotif, hreason, hit, hd]
    simp only [show ((("mention" : String) == "mention") ||
      (("mention" : String) == "review_requested")) = true from rfl, if_true]
    unfold classifyFetched
    simp [hop, hreason, hcs, hnorep, hurl, hit, hd, hna]
  · intro hreason hit hd hop hcs hnorep hcsub hsh hget hcna
    have hne : (n.latestCommentURL == "") = false := by
      by_cases hb : n.latestCommentURL = ""
      · rw [hb] at hcsub
        exact absurd hcsub (by decide)
      · simp [hb]
    simp only [List.getLastD_eq_getLast?] at hget
    simp only [processNotif, hreason, hit, hd]
    simp only [show ((("mention" : String) == "mention") ||
      (("mention" : String) == "review_requested")) = true from rfl, if_true]
    unfold classifyFetched
    simp [hop, hreason, hcs, hnorep, hne, hcsub, hsh, hget, hcna]

set_option maxRecDepth 10000

/-- C9 witness: a 301-character body is cut to its first 297 characters
plus an ellipsis, and an open-issue body mention embeds the (here short,
verbatim) body in the alert produced for bob. -/
theorem C9_truncation_witness :
    (truncateContent (String.mk (List.replicate 301 'a')) =
      String.mk ((String.mk (List.replicate 301 'a')).data.take 297 ++
        ['.', '.', '.'])) ∧
    processNotif wOpen "bob" nMentionBody =
      ⟨some ⟨"mention",
        mentionBodyMsg nMentionBody "alice" (truncateContent "issue body"),
        sampleOpen.htmlURL⟩, false⟩ :=
  ⟨((C9_truncation wOpen "bob" nMentionBody sampleOpen [] ⟨"", "", 0⟩).1
      (String.mk (List.replicate 301 'a'))).2.1 (by decide),
   (C9_truncation wOpen "bob" nMentionBody sampleOpen [] ⟨"", "", 0⟩).2.1
      rfl rfl rfl rfl rfl rfl rfl rfl⟩

/-- `AddGitHubAccount` preserves the users-have-accounts invariant: the
transaction inserts the users row and upserts an account row together. -/
theorem dbInv_add (s : DBState) (chatID : Int) (token username : String)
    (h : dbInv s) : dbInv (addGitHubAccount s chatID token username) := by
  intro c hc
  unfold addGitHubAccount at hc ⊢
  simp only at hc ⊢
  have hacc : ∀ c' : Int, (∃ a ∈ s.accounts, a.chatID = c') →
      ∃ a ∈ (if s.accounts.any (fun a => a.chatID == chatID && a.username == username) = true then
          s.accounts.map fun a =>
            if a.chatID == chatID && a.username == username then
              ⟨a.chatID, a.username, token, true⟩
            else a
        else s.accounts ++ [⟨chatID, username, token, true⟩]), a.chatID = c' := by
    intro c' ⟨a, ha, hac⟩
    by_cases hex : s.accounts.any (fun a => a.chatID == chatID && a.username == username) = true
    · rw [if_pos hex]
      refine ⟨if a.chatID == chatID && a.username == username then
          ⟨a.chatID, a.username, token, true⟩ else a, List.mem_map_of_mem _ ha, ?_⟩
      by_cases hcase : (a.chatID == chatID && a.username == username) = true
      · rw [if_pos hcase]; exact hac
      · rw [if_neg hcase]; exact hac
    · rw [if_neg hex]
      exact ⟨a, List.mem_append_left _ ha, hac⟩
  have hnew : ∃ a ∈ (if s.accounts.any (fun a => a.chatID == chatID && a.username == username) = true then
      s.accounts.map fun a =>
        if a.chatID == chatID && a.username == username then
          ⟨a.chatID, a.username, token, true⟩
        else a
    else s.accounts ++ [⟨chatID, username, token, true⟩]), a.chatID = chatID := by
    by_cases hex : s.accounts.any (fun a => a.chatID == chatID && a.username == username) = true
    · rw [if_pos hex]
      obtain ⟨a, ha, hp⟩ := List.any_eq_true.mp hex
      have hchat : a.chatID = chatID := by
        have := (Bool.and_eq_true _ _).mp hp
        exact eq_of_beq this.1
      refine ⟨if a.chatID == chatID && a.username == username then
          ⟨a.chatID, a.username, token, true⟩ else a, List.mem_map_of_mem _ ha, ?_⟩
      by_cases hcase : (a.chatID == chatID && a.username == username) = true
      · rw [if_pos hcase]; exact hchat
      · rw [if_neg hcase]; exact hchat
    · rw [if_neg hex]
      exact ⟨⟨chatID, username, token, true⟩,
        List.mem_append_right _ (List.mem_singleton_self _), rfl⟩
  by_cases hcont : s.users.contains chatID = true
  · simp only [hcont, if_true] at hc
    exact hacc c (h c hc)
  · simp only [hcont] at hc
    rw [if_neg (by simp [hcont])] at hc
    rcases List.mem_append.mp hc with h1 | h1
    · exact hacc c (h c h1)
    · rw [List.mem_singleton.mp h1]
      exact hnew

/-- `RemoveGitHubAccount` preserves the users-have-accounts invariant: a
chat whose last account row disappears loses its users row too. -/
theorem dbInv_remove (s : DBState) (chatID : Int) (username : String)
    (h : dbInv s) : dbInv (removeGitHubAccount s chatID username) := by
  intro c hc
  unfold removeGitHubAccount at hc ⊢
  simp only at hc ⊢
  have hsurvive : ∀ a ∈ s.accounts, a.chatID = c → c ≠ chatID →
      a ∈ s.accounts.filter fun a => !(a.chatID == chatID && a.username == username) := by
    intro a ha hac hne
    refine List.mem_filter.mpr ⟨ha, ?_⟩
    simp only [Bool.not_eq_true']
    simp [hac, hne]
  by_cases hcnt : ((s.accounts.filter fun a =>
      !(a.chatID == chatID && a.username == username)).countP
        (fun a => a.chatID == chatID) == 0) = true
  · simp only [hcnt, if_true] at hc
    obtain ⟨hcu, hcne⟩ := List.mem_filter.mp hc
    have hne : c ≠ chatID := by simpa using hcne
    obtain ⟨a, ha, hac⟩ := h c hcu
    exact ⟨a, hsurvive a ha hac hne, hac⟩
  · simp only [hcnt] at hc
    rw [if_neg (by simp [hcnt])] at hc
    by_cases hne : c = chatID
    · subst hne
      have hpos : 0 < (s.accounts.filter fun a =>
          !(a.chatID == c && a.username == username)).countP
            (fun a => a.chatID == c) := by
        rcases Nat.eq_zero_or_pos ((s.accounts.filter fun a =>
            !(a.chatID == c && a.username == username)).countP
              (fun a => a.chatID == c)) with hz | hp
        · exact absurd (by rw [hz]; rfl) hcnt
        · exact hp
      obtain ⟨a, ha, hp⟩ := List.countP_pos_iff.mp hpos
      exact ⟨a, ha, eq_of_beq hp⟩
    · obtain ⟨a, ha, hac⟩ := h c hc
      exact ⟨a, hsurvive a ha hac hne, hac⟩

/-- `ToggleGitHubAccount` preserves the users-have-accounts invariant: it
only flips a flag. -/
theorem dbInv_toggle (s : DBState) (chatID : Int) (username : String)
    (h : dbInv s) : dbInv (toggleGitHubAccount s chatID username) := by
  intro c hc
  obtain ⟨a, ha, hac⟩ := h c hc
  refine ⟨if a.chatID == chatID && a.username == username then
      ⟨a.chatID, a.username, a.token, !a.isActive⟩ else a,
    List.mem_map_of_mem _ ha, ?_⟩
  by_cases hcase : (a.chatID == chatID && a.username == username) = true
  · rw [if_pos hcase]; exact hac
  · rw [if_neg hcase]; exact hac

/-- C10: removing an account deletes the named row and, when the chat has
no account row left, its users row; every database state reachable through
the registry operations keeps every users row accompanied by at least one
account row; and `GetAllUsers` never returns a user with an empty account
set. -/
theorem C10_registry_invariant :
    (∀ (s : DBState) (chatID : Int) (username : String),
      (∀ a ∈ (removeGitHubAccount s chatID username).accounts,
        ¬(a.chatID = chatID ∧ a.username = username)) ∧
      (getUserAccounts (removeGitHubAccount s chatID username) chatID = [] →
        chatID ∉ (removeGitHubAccount s chatID username).users)) ∧
    (∀ s : DBState, DBReachable s → dbInv s) ∧
    (∀ (s : DBState) (p : Int × List Account), p ∈ getAllUsers s → p.2 ≠ []) := by
  refine ⟨?_, ?_, ?_⟩
  · intro s chatID username
    constructor
    · intro a ha
      obtain ⟨_, hcond⟩ := List.mem_filter.mp ha
      rintro ⟨h1, h2⟩
      simp [h1, h2] at hcond
    · intro h
      have h' : (s.accounts.filter (fun a =>
          !(a.chatID == chatID && a.username == username))).filter
            (fun a => a.chatID == chatID) = [] := h
      have hcnt : ((s.accounts.filter fun a =>
          !(a.chatID == chatID && a.username == username)).countP
            (fun a => a.chatID == chatID)) = 0 := by
        rw [List.countP_eq_length_filter, h']
        rfl
      have husers : (removeGitHubAccount s chatID username).users =
          s.users.filter (fun c => !(c == chatID)) := by
        show (if ((s.accounts.filter (fun a =>
            !(a.chatID == chatID && a.username == username))).countP
              (fun a => a.chatID == chatID) == 0) = true then
            s.users.filter (fun c => !(c == chatID))
          else s.users) = s.users.filter (fun c => !(c == chatID))
        rw [hcnt]
        rfl
      rw [husers]
      intro hmem
      obtain ⟨_, hfalse⟩ := List.mem_filter.mp hmem
      simp at hfalse
  · intro s hr
    induction hr with
    | init => intro c hc; simp at hc
    | add s0 chatID token username _ ih => exact dbInv_add s0 chatID token username ih
    | remove s0 chatID username _ ih => exact dbInv_remove s0 chatID username ih
    | toggle s0 chatID username _ ih => exact dbInv_toggle s0 chatID username ih
  · intro s p hp
    obtain ⟨c, _, heq⟩ := List.mem_filterMap.mp hp
    by_cases hemp : (getUserAccounts s c).isEmpty = true
    · rw [if_pos hemp] at heq
      cases heq
    · rw [if_neg hemp] at heq
      cases heq
      simpa [List.isEmpty_iff] using hemp

/-- C10 witness: after adding bob's account for chat 1 the invariant holds,
and after then removing it the chat's users row is gone. -/
theorem C10_registry_invariant_witness :
    dbInv (addGitHubAccount ⟨[], []⟩ 1 "tok" "bob") ∧
    (1 : Int) ∉ (removeGitHubAccount (addGitHubAccount ⟨[], []⟩ 1 "tok" "bob")
      1 "bob").users :=
  ⟨C10_registry_invariant.2.1 _
      (DBReachable.add ⟨[], []⟩ 1 "tok" "bob" DBReachable.init),
   (C10_registry_invariant.1 (addGitHubAccount ⟨[], []⟩ 1 "tok" "bob")
      1 "bob").2 (by decide)⟩

end RepoMonitor
